import Mathlib

/-!
Verification of the FuseTester acquisition-and-delivery pipeline.

Shallow embedding of the relevant source code:
- `src/services/gpio.service.js`   (GPIOService: multiplexer control)
- `src/services/fuseMonitor.service.js` (FuseMonitorService: sweep loop, CSV hand-off)
- `src/services/csv.logger.js`     (CSVLogger: headers, size-based rotation)
- `src/services/ads1115.service.js` (ADS1115Service: ADC protocol and scaling)

Pin levels are modelled as `Nat` values 0/1, exactly the values the source
passes to `digitalWrite`.  Machine arithmetic in the source is plain
JavaScript number arithmetic on small integers, modelled with `Nat`/`Int`;
the ADC voltage arithmetic is modelled over `ℚ`.
Fallible operations (JavaScript `throw`) are modelled with `Except String`,
with the exact message strings of the source; every validation in the source
happens before any write, so a failing call leaves the state unchanged.
-/

namespace FuseTester

/-! ## GPIO pin state (gpio.service.js)

One field per physical line: address lines S0..S3 (MUX_CONTROL_PINS) and
active-low enable lines MUX0..MUX3 (MUX_ENABLE_PINS).  A field holds the
last level written by `digitalWrite` (0 or 1). -/

structure GpioPins where
  s0 : Nat
  s1 : Nat
  s2 : Nat
  s3 : Nat
  mux0 : Nat
  mux1 : Nat
  mux2 : Nat
  mux3 : Nat
deriving DecidableEq, Repr

/-- Pin state established by `GPIOService.initialize`: control pins written 0,
enable pins written 1 (active low, so 1 = disabled). -/
def initPins : GpioPins :=
  { s0 := 0, s1 := 0, s2 := 0, s3 := 0, mux0 := 1, mux1 := 1, mux2 := 1, mux3 := 1 }

/-- The four `digitalWrite` calls of `GPIOService.setMuxChannel` (lines 86-89):
S0..S3 receive the four low bits of `channel`; enable lines untouched. -/
def setMuxChannelPins (channel : Nat) (p : GpioPins) : GpioPins :=
  { p with
    s0 := channel &&& 0x01
    s1 := (channel &&& 0x02) >>> 1
    s2 := (channel &&& 0x04) >>> 2
    s3 := (channel &&& 0x08) >>> 3 }

/-- The four `digitalWrite(1)` calls of `GPIOService.disableAllMux`
(lines 125-128): every enable line high; address lines untouched. -/
def disableAllPins (p : GpioPins) : GpioPins :=
  { p with mux0 := 1, mux1 := 1, mux2 := 1, mux3 := 1 }

/-- The writes of `GPIOService.enableMux` (lines 106-113): first every enable
line high, then the enable line of the selected mux low; address lines untouched.
`muxIndex` is validated to 0..3 before this runs. -/
def enableMuxPins (muxIndex : Nat) (p : GpioPins) : GpioPins :=
  let q := disableAllPins p
  match muxIndex with
  | 0 => { q with mux0 := 0 }
  | 1 => { q with mux1 := 0 }
  | 2 => { q with mux2 := 0 }
  | 3 => { q with mux3 := 0 }
  | _ => q

/-- `GPIOService.getCurrentChannel` (line 178) on the pin state:
`s0 | (s1 << 1) | (s2 << 2) | (s3 << 3)`. -/
def currentChannel (p : GpioPins) : Nat :=
  p.s0 ||| (p.s1 <<< 1) ||| (p.s2 <<< 2) ||| (p.s3 <<< 3)

/-- Level of enable line `j` (0..3), as read by `getEnabledMux`. -/
def muxLevel (p : GpioPins) (j : Nat) : Nat :=
  match j with
  | 0 => p.mux0
  | 1 => p.mux1
  | 2 => p.mux2
  | _ => p.mux3

/-- `GPIOService.getEnabledMux` (lines 190-197): first enable line read low
wins; -1 when none is low. -/
def getEnabledMux (p : GpioPins) : Int :=
  if p.mux0 = 0 then 0
  else if p.mux1 = 0 then 1
  else if p.mux2 = 0 then 2
  else if p.mux3 = 0 then 3
  else -1

/-- Number of enable lines currently asserted (low). -/
def enabledCount (p : GpioPins) : Nat :=
  (if p.mux0 = 0 then 1 else 0) + (if p.mux1 = 0 then 1 else 0) +
  (if p.mux2 = 0 then 1 else 0) + (if p.mux3 = 0 then 1 else 0)

/-! ## GPIOService with its `initialized` guard -/

structure GPIOServiceState where
  inited : Bool
  pins : GpioPins
deriving DecidableEq, Repr

/-- State after a successful `GPIOService.initialize`. -/
def gpioInitState : GPIOServiceState := { inited := true, pins := initPins }

/-- `GPIOService.setMuxChannel` (lines 76-90).  The source also rejects
`channel < 0`; channels are naturals here. -/
def setMuxChannel (channel : Nat) (s : GPIOServiceState) :
    Except String GPIOServiceState :=
  if !s.inited then .error "GPIO service not initialized"
  else if channel > 15 then .error "Channel must be 0-15"
  else .ok { s with pins := setMuxChannelPins channel s.pins }

/-- `GPIOService.enableMux` (lines 96-114). -/
def enableMux (muxIndex : Nat) (s : GPIOServiceState) :
    Except String GPIOServiceState :=
  if !s.inited then .error "GPIO service not initialized"
  else if muxIndex > 3 then .error "Mux index must be 0-3"
  else .ok { s with pins := enableMuxPins muxIndex s.pins }

/-- `GPIOService.disableAllMux` (lines 119-129). -/
def disableAllMux (s : GPIOServiceState) : Except String GPIOServiceState :=
  if !s.inited then .error "GPIO service not initialized"
  else .ok { s with pins := disableAllPins s.pins }

/-- The three mutating GPIO operations exposed to the rest of the system. -/
inductive GpioOp where
  | select (channel : Nat)
  | enable (muxIndex : Nat)
  | disableAll
deriving DecidableEq, Repr

def applyGpioOp (op : GpioOp) (s : GPIOServiceState) :
    Except String GPIOServiceState :=
  match op with
  | .select c => setMuxChannel c s
  | .enable m => enableMux m s
  | .disableAll => disableAllMux s

/-- States reachable from the initialized state by any sequence of
successful GPIO operations.  A throwing call leaves the pins unchanged
(every validation in the source precedes the first `digitalWrite`), so
these are exactly the pin states observable at any time. -/
inductive GpioReachable : GPIOServiceState → Prop where
  | init : GpioReachable gpioInitState
  | step (op : GpioOp) (s t : GPIOServiceState) :
      GpioReachable s → applyGpioOp op s = .ok t → GpioReachable t

/-! ## Channel addressing

The sweep loop derives the logical fuse number as
`fuseNumber = muxIndex * channelsPerMux + channel + 1` (fuseMonitor line 440);
`toRoute` is the inverse direction stated in the specification,
`mux = (index-1) / 16`, `channel = (index-1) % 16`. -/

/-- Logical index of the fuse at `(muxIndex, channel)`, as computed by
`collectAndLogData` (line 440). -/
def toIndex (muxIndex channel : Nat) : Nat :=
  muxIndex * 16 + channel + 1

/-- The mapping stated in the specification from a logical index 1..64 to its
`(mux, channel)` pair. -/
def toRoute (index : Nat) : Nat × Nat :=
  ((index - 1) / 16, (index - 1) % 16)

/-! ## The sweep (`FuseMonitorService.collectAndLogData`, lines 412-483)

The environment packages the outcomes of the calls the sweep makes:
* `selectFail m c` — `GPIOService.setMuxChannel` throws at mux `m`,
  channel `c` (caught by the per-channel `try`, line 444);
* `adcRead m c` — result of `ADS1115Service.readChannel m` while channel
  `c` is routed: `some v` is the returned voltage, `none` means the read
  threw (caught by the per-channel `try`);
* `enableFail m` — `GPIOService.enableMux m` (line 425, outside the
  per-channel `try`) throws: an unrecoverable exception that lands in the
  outer `catch` (line 470).
Every throw in the source happens before the state writes of the failing
call, so a failing call leaves the pins unchanged. -/

structure SweepEnv where
  selectFail : Nat → Nat → Bool
  adcRead : Nat → Nat → Option ℚ
  enableFail : Nat → Bool

/-- One entry of the assembled `fuseData` row: the source pushes the numeric
voltage on success (line 437) and the string `"0.0"` on a caught per-channel
error (line 449). -/
inductive Reading where
  | measured (v : ℚ)
  | sentinel
deriving DecidableEq, Repr

/-- Observable calls made during a sweep. -/
inductive Ev where
  | enable (m : Nat)
  | select (c : Nat)
  | read (m c : Nat)
  | disableAll
  | logCSV
deriving DecidableEq, Repr

/-- The inner per-channel body (lines 430-450): `setMuxChannel`, settle
delay, `readChannel`, with the `try`/`catch` pushing the sentinel. -/
def channelStep (env : SweepEnv) (m c : Nat) (g : GpioPins) :
    GpioPins × Reading × List Ev :=
  if env.selectFail m c then (g, .sentinel, [])
  else
    let g1 := setMuxChannelPins c g
    match env.adcRead m c with
    | some v => (g1, .measured v, [.select c, .read m c])
    | none => (g1, .sentinel, [.select c, .read m c])

/-- The 16-channel inner loop (line 429) over an explicit channel list. -/
def runChannels (env : SweepEnv) (m : Nat) :
    List Nat → GpioPins → GpioPins × List Reading × List Ev
  | [], g => (g, [], [])
  | c :: rest, g =>
    let s1 := channelStep env m c g
    let s2 := runChannels env m rest s1.1
    (s2.1, s1.2.1 :: s2.2.1, s1.2.2 ++ s2.2.2)

/-- The 4-mux outer loop (line 421): enable the mux (a throw here escapes to
the outer `catch`), then run its 16 channels.  Returns the pin state at the
point the loop stopped, `.ok` row on completion, `.error` on an
unrecoverable exception. -/
def runMuxes (env : SweepEnv) :
    List Nat → GpioPins → GpioPins × Except String (List Reading) × List Ev
  | [], g => (g, .ok [], [])
  | m :: rest, g =>
    if env.enableFail m then (g, .error "enableMux threw", [])
    else
      let g1 := enableMuxPins m g
      let s1 := runChannels env m (List.range 16) g1
      match runMuxes env rest s1.1 with
      | (g2, .ok row, evs) =>
        (g2, .ok (s1.2.1 ++ row), .enable m :: s1.2.2 ++ evs)
      | (g2, .error e, evs) =>
        (g2, .error e, .enable m :: s1.2.2 ++ evs)

/-- `FuseMonitorService.collectAndLogData` (lines 412-483): run the four
muxes; on completion `disableAllMux` then `logToCSV` (lines 455-463); on an
unrecoverable exception the `catch` (line 470) runs `disableAllMux` and no
row is logged.  The result row is `none` exactly when no row reached the
CSV hand-off. -/
def collectAndLogData (env : SweepEnv) (g : GpioPins) :
    GpioPins × Option (List Reading) × List Ev :=
  match runMuxes env [0, 1, 2, 3] g with
  | (g1, .ok row, evs) =>
    (disableAllPins g1, some row, evs ++ [.disableAll, .logCSV])
  | (g1, .error _, evs) =>
    (disableAllPins g1, none, evs ++ [.disableAll])

/-- The value the row holds for mux `m`, channel `c`, per the per-channel
policy of lines 430-450. -/
def expectedReading (env : SweepEnv) (m c : Nat) : Reading :=
  if env.selectFail m c then .sentinel
  else
    match env.adcRead m c with
    | some v => .measured v
    | none => .sentinel

/-- The full 64-entry row, indexed by logical fuse number 1..64 through
`toRoute`. -/
def expectedRow (env : SweepEnv) : List Reading :=
  (List.range 64).map fun k =>
    expectedReading env (toRoute (k + 1)).1 (toRoute (k + 1)).2

/-- The `(mux, channel)` pairs at which the ADC was read, in call order. -/
def readPairs (evs : List Ev) : List (Nat × Nat) :=
  evs.filterMap fun e =>
    match e with
    | .read m c => some (m, c)
    | _ => none

/-- Enable-line-only operations, for framing statements: `enableMux` and
`disableAllMux` write no address line. -/
inductive EnOp where
  | en (m : Nat)
  | dis
deriving DecidableEq, Repr

def applyEnOps : List EnOp → GpioPins → GpioPins
  | [], p => p
  | .en m :: rest, p => applyEnOps rest (enableMuxPins m p)
  | .dis :: rest, p => applyEnOps rest (disableAllPins p)

/-! ## CSV logger (`csv.logger.js`)

The state mirrors the fields of `CSVLogger`; `file` is the line content of
the active file and `archived` the rotated-away files.  `fileSz` is the
own `this.fileSize` accounting of the logger; the true byte size of the active
file is `fileBytes st.file`.  The two coincide for writes that go through
`CSVLogger`, but `FuseMonitorService.logToCSV` writes to the stream
directly (see `logToCSVP`). -/

structure CSVState where
  inited : Bool
  fileSz : Nat
  maxFileSize : Nat
  rotationCount : Nat
  headers : Option (List String)
  file : List String
  archived : List (List String)
deriving DecidableEq, Repr

/-- `headers.join(",") + "\n"` (csv.logger lines 87, 191). -/
def headerLine (hs : List String) : String :=
  String.intercalate "," hs ++ "\n"

/-- `Buffer.byteLength(line, "utf8")`. -/
def lineBytes (l : String) : Nat := l.utf8ByteSize

/-- Byte size of a file given as its list of lines. -/
def fileBytes (f : List String) : Nat := (f.map lineBytes).sum

/-- Logger state after `CSVLogger.initialize` on a path with no existing
file: `fileSize = 0`, fresh empty active file. -/
def freshCSV (maxSz : Nat) : CSVState :=
  { inited := true, fileSz := 0, maxFileSize := maxSz, rotationCount := 0,
    headers := none, file := [], archived := [] }

/-- Default `maxFileSize`: `50 * 1024 * 1024` (csv.logger line 32). -/
def defaultMaxFileSize : Nat := 50 * 1024 * 1024

/-- `CSVLogger.writeHeaders` body (lines 77-96): record the headers, and
append the header line only when `fileSize === 0`. -/
def writeHeadersP (hs : List String) (st : CSVState) : CSVState :=
  let st1 := { st with headers := some hs }
  if st.fileSz = 0 then
    { st1 with
      file := st1.file ++ [headerLine hs]
      fileSz := st1.fileSz + lineBytes (headerLine hs) }
  else st1

/-- `CSVLogger.writeHeaders` with its initialization guard. -/
def writeHeaders (hs : List String) (st : CSVState) : Except String CSVState :=
  if !st.inited then .error "CSV logger not initialized"
  else .ok (writeHeadersP hs st)

/-- `CSVLogger.rotateFile` (lines 153-201): archive the active file under a
rotated name, bump `rotationCount`, start an empty file (`fileSize = 0`),
and re-stamp the header when one was recorded. -/
def rotateFileP (st : CSVState) : CSVState :=
  let st1 :=
    { st with
      rotationCount := st.rotationCount + 1
      archived := st.archived ++ [st.file]
      file := []
      fileSz := 0 }
  match st.headers with
  | some hs =>
    { st1 with file := [headerLine hs], fileSz := lineBytes (headerLine hs) }
  | none => st1

/-- `CSVLogger.logData` body (lines 102-148) applied to the serialized
`csvLine`: rotate first when `fileSize + lineSize > maxFileSize`, then
append and grow `fileSize`. -/
def logDataP (csvLine : String) (st : CSVState) : CSVState :=
  let lineSize := lineBytes csvLine
  let st1 := if st.fileSz + lineSize > st.maxFileSize then rotateFileP st else st
  { st1 with file := st1.file ++ [csvLine], fileSz := st1.fileSz + lineSize }

/-- `CSVLogger.logData` with its initialization guard. -/
def logData (csvLine : String) (st : CSVState) : Except String CSVState :=
  if !st.inited then .error "CSV logger not initialized"
  else .ok (logDataP csvLine st)

/-- The row serialization used at both call sites:
`[timestamp, ...values].join(",") + "\n"` (fuseMonitor line 492,
csv.logger line 117). -/
def csvRow (timestamp : String) (values : List String) : String :=
  String.intercalate "," (timestamp :: values) ++ "\n"

/-- `FuseMonitorService.logToCSV` (lines 489-512): the delivery path the
sweep actually uses.  It writes the row to `CSVLogger.writeStream`
directly, so the active file grows but no rotation check runs and the
`fileSize` accounting of the logger is not updated. -/
def logToCSVP (timestamp : String) (values : List String) (st : CSVState) :
    CSVState :=
  { st with file := st.file ++ [csvRow timestamp values] }

/-- The headers built by `FuseMonitorService.ensureCSVHeader`
(lines 360-371): `timestamp`, then `fuse 1` .. `fuse 64`. -/
def fuseHeaders : List String :=
  "timestamp" :: (List.range 64).map fun i => "fuse " ++ toString (i + 1)

/-! ## ADS1115 conversion (`ads1115.service.js`)

JavaScript number arithmetic on the raw register value is exact integer
arithmetic here (`Nat`/`Int`), and the voltage arithmetic is over `ℚ`. -/

/-- `ADS1115Service.getVoltageRange` (lines 79-96), keyed by the PGA config
bits; unknown codes fall back to 4.096. -/
def getVoltageRange (gain : Nat) : ℚ :=
  if gain = 0x0000 then 6.144
  else if gain = 0x0200 then 4.096
  else if gain = 0x0400 then 2.048
  else if gain = 0x0600 then 1.024
  else if gain = 0x0800 then 0.512
  else if gain = 0x0a00 then 0.256
  else 4.096

/-- The constructor default `this.gain = ADS1115_CONFIG_PGA_4_096V`
(line 48). -/
def defaultGain : Nat := 0x0200

/-- Lines 170-173: `if (value > 32767) value -= 65536`. -/
def signedOfRaw (raw : Nat) : Int :=
  if raw > 32767 then (raw : Int) - 65536 else (raw : Int)

/-- `ADS1115Service.convertRawToVoltage` (lines 168-180):
`(value / 32767.0) * voltageRange`. -/
def convertRawToVoltage (gain raw : Nat) : ℚ :=
  (signedOfRaw raw : ℚ) / 32767 * getVoltageRange gain

/-- JavaScript `Math.round`: round half toward positive infinity. -/
def jsRound (q : ℚ) : Int := ⌊q + 1 / 2⌋

/-- The value `ADS1115Service.readChannel` returns for a raw conversion
register value (line 160): `Math.round(voltage * 100) / 100`. -/
def readChannelVoltage (gain raw : Nat) : ℚ :=
  (jsRound (convertRawToVoltage gain raw * 100) : ℚ) / 100

/-! ## Monitoring loop (`FuseMonitorService.startMonitoring`, lines 376-395)

`startMonitoring` refuses to install a second interval while `monitoring`
is already true.  The installed interval handler is
`async () => { await this.collectAndLogData(); }`: it contains no check of
any in-flight sweep and no missed-cycle log, so every timer tick starts a
new `collectAndLogData` invocation.  `inFlight` counts invocations started
and not yet returned; `missedLogged` counts dropped-tick log lines (the
source has no statement that could produce one). -/

structure MonitorState where
  monitoring : Bool
  hasInterval : Bool
  inFlight : Nat
  missedLogged : Nat
deriving DecidableEq, Repr

def initialMonitor : MonitorState :=
  { monitoring := false, hasInterval := false, inFlight := 0, missedLogged := 0 }

/-- `startMonitoring` (lines 376-395): early-returns when already
monitoring, otherwise installs the interval. -/
def startMonitoring (s : MonitorState) : MonitorState :=
  if s.monitoring then s
  else { s with monitoring := true, hasInterval := true }

/-- One firing of the `setInterval` handler (lines 390-392): it invokes
`collectAndLogData` unconditionally. -/
def intervalTick (s : MonitorState) : MonitorState :=
  { s with inFlight := s.inFlight + 1 }

/-- A `collectAndLogData` invocation returning. -/
def sweepFinish (s : MonitorState) : MonitorState :=
  { s with inFlight := s.inFlight - 1 }

/-! ## Buffered remote sink

The Python client that implements the HTTP delivery buffer is not part of
this tree; only its configuration surface (`MAX_BUFFER_SIZE=100`,
`SERVER_URL`, retry/backoff notes in the README) is.  The sink is
therefore modelled from the specification. -/

/-- Modelled from the spec: the BufferedRemoteSink retry buffer, which is
absent from this tree (only the `MAX_BUFFER_SIZE` configuration and README
notes document it).  The buffer holds entries oldest first and is bounded
by `capacity`. -/
structure BufferedRemoteSink (α : Type) where
  capacity : Nat
  buffer : List α
deriving DecidableEq, Repr

/-- Modelled from the spec: the documented default capacity,
`MAX_BUFFER_SIZE=100`. -/
def defaultMaxBufferSize : Nat := 100

/-- A sink with an empty buffer. -/
def emptySink (α : Type) (cap : Nat) : BufferedRemoteSink α :=
  { capacity := cap, buffer := [] }

/-- Modelled from the spec: a failed delivery pushes the result onto the
buffer; when that exceeds `capacity`, the oldest entries are evicted to
admit the newest. -/
def deliverFail {α : Type} (sink : BufferedRemoteSink α) (r : α) :
    BufferedRemoteSink α :=
  let b := sink.buffer ++ [r]
  { sink with
    buffer := if sink.capacity < b.length then b.drop (b.length - sink.capacity) else b }

/-- Modelled from the spec: `deliver` retains nothing on success and
buffers on failure. -/
def deliver {α : Type} (ok : Bool) (sink : BufferedRemoteSink α) (r : α) :
    BufferedRemoteSink α :=
  if ok then sink else deliverFail sink r

/-- The `n` most recent elements of `l`. -/
def lastN {α : Type} (n : Nat) (l : List α) : List α :=
  l.drop (l.length - n)

/-! ## Concrete instances used to exercise the theorems -/

/-- A sweep environment in which channel `(1,5)` fails at channel select,
channel `(2,3)` fails at the ADC read, and everything else reads 1 V. -/
def envW : SweepEnv :=
  { selectFail := fun m c => decide (m = 1 ∧ c = 5)
    adcRead := fun m c => if m = 2 ∧ c = 3 then none else some 1
    enableFail := fun _ => false }

/-- A fully healthy sweep environment reading `m * 16 + c` volts. -/
def envH : SweepEnv :=
  { selectFail := fun _ _ => false
    adcRead := fun m c => some ((m * 16 + c : ℚ))
    enableFail := fun _ => false }

/-- A fresh logger run: `writeHeaders` once on the empty file, then a
sequence of `logData` lines. -/
def csvRun (maxSz : Nat) (hs : List String) (lines : List String) : CSVState :=
  lines.foldl (fun st l => logDataP l st) (writeHeadersP hs (freshCSV maxSz))

/-! ## Helper lemmas about the sweep -/

theorem runChannels_row (env : SweepEnv) (m : Nat) (cs : List Nat) :
    ∀ g, (runChannels env m cs g).2.1 = cs.map (expectedReading env m) := by
  induction cs with
  | nil => intro g; rfl
  | cons c rest ih =>
    intro g
    by_cases h1 : env.selectFail m c = true
    · simp [runChannels, channelStep, expectedReading, h1, ih]
    · have h1f : env.selectFail m c = false := by simpa using h1
      cases h2 : env.adcRead m c <;>
        simp [runChannels, channelStep, expectedReading, h1f, h2, ih]

theorem runMuxes_row (env : SweepEnv) (ms : List Nat) :
    ∀ g, (∀ m ∈ ms, env.enableFail m = false) →
      (runMuxes env ms g).2.1 =
        .ok (ms.flatMap fun m => (List.range 16).map (expectedReading env m)) := by
  induction ms with
  | nil => intro g _; rfl
  | cons m rest ih =>
    intro g h
    have hm : env.enableFail m = false := h m (by simp)
    have hrest := ih (runChannels env m (List.range 16) (enableMuxPins m g)).1
      (fun x hx => h x (by simp [hx]))
    rcases hrec : runMuxes env rest
        (runChannels env m (List.range 16) (enableMuxPins m g)).1 with ⟨g2, res, evs⟩
    rw [hrec] at hrest
    simp only at hrest
    subst hrest
    simp [runMuxes, hm, hrec, runChannels_row]

theorem expectedRow_flat (env : SweepEnv) :
    expectedRow env =
      [0, 1, 2, 3].flatMap fun m => (List.range 16).map (expectedReading env m) := by
  have h : (List.range 64).map (fun k => toRoute (k + 1)) =
      [0, 1, 2, 3].flatMap fun m => (List.range 16).map fun c => ((m : Nat), c) := by
    decide
  have h2 : expectedRow env =
      ((List.range 64).map (fun k => toRoute (k + 1))).map
        fun mc => expectedReading env mc.1 mc.2 := by
    simp [expectedRow, List.map_map, Function.comp_def]
  rw [h2, h, List.map_flatMap]
  simp [List.map_map, Function.comp_def]

theorem collect_row (env : SweepEnv) (g : GpioPins)
    (hE : ∀ m, m < 4 → env.enableFail m = false) :
    (collectAndLogData env g).2.1 = some (expectedRow env) := by
  have h4 : ∀ m ∈ [0, 1, 2, 3], env.enableFail m = false := by
    intro m hm
    simp at hm
    apply hE
    rcases hm with h | h | h | h <;> omega
  have hrow := runMuxes_row env [0, 1, 2, 3] g h4
  rcases hrm : runMuxes env [0, 1, 2, 3] g with ⟨g1, res, evs⟩
  rw [hrm] at hrow
  simp only at hrow
  subst hrow
  simp [collectAndLogData, hrm, expectedRow_flat]

theorem readPairs_append (a b : List Ev) :
    readPairs (a ++ b) = readPairs a ++ readPairs b := by
  simp [readPairs, List.filterMap_append]

theorem readPairs_cons_select (c : Nat) (l : List Ev) :
    readPairs (Ev.select c :: l) = readPairs l := rfl

theorem readPairs_cons_read (m c : Nat) (l : List Ev) :
    readPairs (Ev.read m c :: l) = (m, c) :: readPairs l := rfl

theorem readPairs_cons_enable (m : Nat) (l : List Ev) :
    readPairs (Ev.enable m :: l) = readPairs l := rfl

theorem runChannels_readPairs (env : SweepEnv) (m : Nat)
    (hS : ∀ c, env.selectFail m c = false) (cs : List Nat) :
    ∀ g, readPairs (runChannels env m cs g).2.2 = cs.map fun c => (m, c) := by
  induction cs with
  | nil => intro g; rfl
  | cons c rest ih =>
    intro g
    cases h2 : env.adcRead m c <;>
      simp only [runChannels, channelStep, hS c, Bool.false_eq_true, if_false,
        h2, readPairs_append, readPairs_cons_select, readPairs_cons_read,
        ih, List.map_cons, List.cons_append, List.nil_append]

theorem runMuxes_readPairs (env : SweepEnv)
    (hS : ∀ m c, env.selectFail m c = false) (ms : List Nat) :
    ∀ g, (∀ m ∈ ms, env.enableFail m = false) →
      readPairs (runMuxes env ms g).2.2 =
        ms.flatMap fun m => (List.range 16).map fun c => (m, c) := by
  induction ms with
  | nil => intro g _; rfl
  | cons m rest ih =>
    intro g h
    have hm : env.enableFail m = false := h m (by simp)
    rcases hrec : runMuxes env rest
        (runChannels env m (List.range 16) (enableMuxPins m g)).1 with ⟨g2, res, evs⟩
    have hih := ih (runChannels env m (List.range 16) (enableMuxPins m g)).1
      (fun x hx => h x (by simp [hx]))
    rw [hrec] at hih
    simp only at hih
    cases res <;>
      simp [runMuxes, hm, hrec, readPairs_append, readPairs_cons_enable,
        runChannels_readPairs env m (fun c => hS m c), hih]

/-- **C4.** Every execution of `collectAndLogData` — normal completion or
termination through the outer `catch` on an unrecoverable exception —
performs the `disableAllMux` call before returning, and the enabled-mux
state after the sweep is "none": `getEnabledMux` reads -1 and no enable
line is asserted. -/
theorem sweep_always_disables_all (env : SweepEnv) (g : GpioPins) :
    Ev.disableAll ∈ (collectAndLogData env g).2.2 ∧
    getEnabledMux (collectAndLogData env g).1 = -1 ∧
    enabledCount (collectAndLogData env g).1 = 0 := by
  rcases hrm : runMuxes env [0, 1, 2, 3] g with ⟨g1, res, evs⟩
  cases res <;>
    simp [collectAndLogData, hrm, getEnabledMux, disableAllPins, enabledCount]

/-- **C1.** Under the per-channel failure policy (no unrecoverable
`enableMux` failure), the sweep always hands a row of exactly 64 entries to
the CSV logger, one per logical channel 1..64: the entry of channel `i` is
the sentinel when the select or ADC read of that channel failed, and the
measured voltage otherwise; no per-channel failure aborts the sweep. -/
theorem sweep_row_has_64_entries (env : SweepEnv) (g : GpioPins)
    (hE : ∀ m, m < 4 → env.enableFail m = false) :
    ∃ row, (collectAndLogData env g).2.1 = some row ∧ row.length = 64 ∧
      ∀ i, 1 ≤ i → i ≤ 64 →
        row.getD (i - 1) .sentinel =
          if env.selectFail ((i - 1) / 16) ((i - 1) % 16) then .sentinel
          else
            match env.adcRead ((i - 1) / 16) ((i - 1) % 16) with
            | some v => .measured v
            | none => .sentinel := by
  refine ⟨expectedRow env, collect_row env g hE, by simp [expectedRow], ?_⟩
  intro i h1 h64
  have hk : i - 1 < 64 := by omega
  simp [expectedRow, List.getD_eq_getElem?_getD, List.getElem?_map,
    List.getElem?_range, hk, expectedReading, toRoute]

/-- Witness for C1: the environment `envW` fails channel select at
`(1, 5)` and the ADC read at `(2, 3)` and has no unrecoverable failure;
the sweep still logs a 64-entry row with the per-channel policy. -/
theorem sweep_row_has_64_entries_witness :
    (∀ m, m < 4 → envW.enableFail m = false) ∧
    (∃ row, (collectAndLogData envW initPins).2.1 = some row ∧
      row.length = 64 ∧
      ∀ i, 1 ≤ i → i ≤ 64 →
        row.getD (i - 1) .sentinel =
          if envW.selectFail ((i - 1) / 16) ((i - 1) % 16) then .sentinel
          else
            match envW.adcRead ((i - 1) / 16) ((i - 1) % 16) with
            | some v => .measured v
            | none => .sentinel) :=
  ⟨fun _ _ => rfl, sweep_row_has_64_entries envW initPins (fun _ _ => rfl)⟩

/-- **C6.** The logical-channel addressing is the bijection
`index ↔ (mux, channel)` with `mux = (index-1)/16`,
`channel = (index-1)%16` (inverse `toIndex`, the formula
`fuseNumber = muxIndex*16 + channel + 1`), and a sweep with no failing
channel selects reads the hardware at exactly these pairs in logical-index
order 1..64 (muxes 0..3 outer, channels 0..15 inner). -/
theorem addressing_bijection_and_sweep_order :
    (∀ i, 1 ≤ i → i ≤ 64 →
        toRoute i = ((i - 1) / 16, (i - 1) % 16) ∧
        (toRoute i).1 < 4 ∧ (toRoute i).2 < 16 ∧
        toIndex (toRoute i).1 (toRoute i).2 = i) ∧
    (∀ m c, m < 4 → c < 16 → toRoute (toIndex m c) = (m, c)) ∧
    ∀ (env : SweepEnv) (g : GpioPins),
      (∀ m c, env.selectFail m c = false) →
      (∀ m, m < 4 → env.enableFail m = false) →
      readPairs (collectAndLogData env g).2.2 =
        (List.range 64).map fun k => toRoute (k + 1) := by
  refine ⟨?_, ?_, ?_⟩
  · intro i h1 h64
    refine ⟨rfl, ?_, ?_, ?_⟩ <;> simp [toRoute, toIndex] <;> omega
  · intro m c hm hc
    simp only [toRoute, toIndex, Prod.mk.injEq]
    omega
  · intro env g hS hE
    have h4 : ∀ m ∈ [0, 1, 2, 3], env.enableFail m = false := by
      intro m hm
      simp at hm
      apply hE
      rcases hm with h | h | h | h <;> omega
    have hrp := runMuxes_readPairs env hS [0, 1, 2, 3] g h4
    rcases hrm : runMuxes env [0, 1, 2, 3] g with ⟨g1, res, evs⟩
    rw [hrm] at hrp
    simp only at hrp
    have hclosed :
        ([0, 1, 2, 3].flatMap fun m => (List.range 16).map fun c => ((m : Nat), c)) =
          (List.range 64).map fun k => toRoute (k + 1) := by decide
    have htail1 : readPairs [Ev.disableAll, Ev.logCSV] = [] := rfl
    have htail2 : readPairs [Ev.disableAll] = [] := rfl
    cases res <;>
      simp [collectAndLogData, hrm, readPairs_append, hrp, hclosed, htail1, htail2]

/-- Witness for C6 at concrete inputs: index 37 round-trips, `(2, 5)`
round-trips, and the healthy environment `envH` reads the pairs in
logical order. -/
theorem addressing_bijection_witness :
    toIndex (toRoute 37).1 (toRoute 37).2 = 37 ∧
    toRoute (toIndex 2 5) = (2, 5) ∧
    readPairs (collectAndLogData envH initPins).2.2 =
      (List.range 64).map fun k => toRoute (k + 1) :=
  ⟨(addressing_bijection_and_sweep_order.1 37 (by decide) (by decide)).2.2.2,
   addressing_bijection_and_sweep_order.2.1 2 5 (by decide) (by decide),
   addressing_bijection_and_sweep_order.2.2 envH initPins
     (fun _ _ => rfl) (fun _ _ => rfl)⟩

/-! ## Helper lemmas about the GPIO operations -/

theorem enableMuxPins_addr (m : Nat) (p : GpioPins) :
    (enableMuxPins m p).s0 = p.s0 ∧ (enableMuxPins m p).s1 = p.s1 ∧
    (enableMuxPins m p).s2 = p.s2 ∧ (enableMuxPins m p).s3 = p.s3 := by
  rcases m with _ | _ | _ | _ | n <;> exact ⟨rfl, rfl, rfl, rfl⟩

theorem applyEnOps_addr (ops : List EnOp) :
    ∀ q, (applyEnOps ops q).s0 = q.s0 ∧ (applyEnOps ops q).s1 = q.s1 ∧
      (applyEnOps ops q).s2 = q.s2 ∧ (applyEnOps ops q).s3 = q.s3 := by
  induction ops with
  | nil => exact fun q => ⟨rfl, rfl, rfl, rfl⟩
  | cons op rest ih =>
    intro q
    cases op with
    | en m =>
      have h1 := enableMuxPins_addr m q
      have h2 := ih (enableMuxPins m q)
      exact ⟨h2.1.trans h1.1, h2.2.1.trans h1.2.1,
        h2.2.2.1.trans h1.2.2.1, h2.2.2.2.trans h1.2.2.2⟩
    | dis => exact ih (disableAllPins q)

theorem currentChannel_applyEnOps (ops : List EnOp) (q : GpioPins) :
    currentChannel (applyEnOps ops q) = currentChannel q := by
  have h := applyEnOps_addr ops q
  simp [currentChannel, h.1, h.2.1, h.2.2.1, h.2.2.2]

theorem enabledCount_enableMuxPins (m : Nat) (p : GpioPins) (hm : m ≤ 3) :
    enabledCount (enableMuxPins m p) = 1 := by
  interval_cases m <;> rfl

/-- **C5.** Starting from the initialized GPIO state, after any sequence of
`enableMux` / `disableAllMux` / `setMuxChannel` operations at most one
enable line is asserted (low); and every successful `enableMux muxIndex`
call asserts the active-low enable line of `muxIndex` and de-asserts the
other three. -/
theorem at_most_one_mux_enabled :
    (∀ s, GpioReachable s → enabledCount s.pins ≤ 1) ∧
    (∀ m s t, enableMux m s = .ok t →
      muxLevel t.pins m = 0 ∧ ∀ j, j ≤ 3 → j ≠ m → muxLevel t.pins j = 1) := by
  constructor
  · intro s hs
    induction hs with
    | init => decide
    | step op s t _ hok ih =>
      cases op with
      | select c =>
        simp only [applyGpioOp, setMuxChannel] at hok
        split at hok
        · exact absurd hok (by simp)
        · split at hok
          · exact absurd hok (by simp)
          · simp only [Except.ok.injEq] at hok
            subst hok
            simpa [enabledCount, setMuxChannelPins] using ih
      | enable m =>
        simp only [applyGpioOp, enableMux] at hok
        split at hok
        · exact absurd hok (by simp)
        · rename_i hinit
          split at hok
          · exact absurd hok (by simp)
          · rename_i hm
            simp only [Except.ok.injEq] at hok
            subst hok
            have : m ≤ 3 := by omega
            simp [enabledCount_enableMuxPins m s.pins this]
      | disableAll =>
        simp only [applyGpioOp, disableAllMux] at hok
        split at hok
        · exact absurd hok (by simp)
        · simp only [Except.ok.injEq] at hok
          subst hok
          simp [enabledCount, disableAllPins]
  · intro m s t hok
    simp only [enableMux] at hok
    split at hok
    · exact absurd hok (by simp)
    · split at hok
      · exact absurd hok (by simp)
      · rename_i hm
        simp only [Except.ok.injEq] at hok
        subst hok
        have hm3 : m ≤ 3 := by omega
        interval_cases m <;>
          refine ⟨rfl, ?_⟩ <;>
            (intro j hj hne; interval_cases j <;> first | rfl | simp at hne)

/-- Witness for C5: the initialized state is reachable and satisfies the
bound, and enabling mux 2 from it asserts exactly line 2. -/
theorem at_most_one_mux_enabled_witness :
    enabledCount gpioInitState.pins ≤ 1 ∧
    (muxLevel (enableMuxPins 2 initPins) 2 = 0 ∧
      ∀ j, j ≤ 3 → j ≠ 2 → muxLevel (enableMuxPins 2 initPins) j = 1) :=
  ⟨at_most_one_mux_enabled.1 gpioInitState GpioReachable.init,
   at_most_one_mux_enabled.2 2 gpioInitState
     ⟨true, enableMuxPins 2 initPins⟩ rfl⟩

/-- **C10.** The two GPIO state groups are mutually framed:
`setMuxChannel` writes only the address lines S0..S3 (bit `i` of the
channel to line `Si`), `enableMux` and `disableAllMux` write only the
enable lines; hence after `setMuxChannel c` the channel read back by
`getCurrentChannel` equals `c` regardless of interleaved enable/disable
calls. -/
theorem gpio_channel_enable_framing :
    (∀ c p, (setMuxChannelPins c p).mux0 = p.mux0 ∧
      (setMuxChannelPins c p).mux1 = p.mux1 ∧
      (setMuxChannelPins c p).mux2 = p.mux2 ∧
      (setMuxChannelPins c p).mux3 = p.mux3) ∧
    (∀ m p, (enableMuxPins m p).s0 = p.s0 ∧ (enableMuxPins m p).s1 = p.s1 ∧
      (enableMuxPins m p).s2 = p.s2 ∧ (enableMuxPins m p).s3 = p.s3) ∧
    (∀ p, (disableAllPins p).s0 = p.s0 ∧ (disableAllPins p).s1 = p.s1 ∧
      (disableAllPins p).s2 = p.s2 ∧ (disableAllPins p).s3 = p.s3) ∧
    (∀ c p, c ≤ 15 →
      (setMuxChannelPins c p).s0 = (if c.testBit 0 then 1 else 0) ∧
      (setMuxChannelPins c p).s1 = (if c.testBit 1 then 1 else 0) ∧
      (setMuxChannelPins c p).s2 = (if c.testBit 2 then 1 else 0) ∧
      (setMuxChannelPins c p).s3 = (if c.testBit 3 then 1 else 0)) ∧
    ∀ c p ops, c ≤ 15 →
      currentChannel (applyEnOps ops (setMuxChannelPins c p)) = c := by
  refine ⟨fun c p => ⟨rfl, rfl, rfl, rfl⟩, enableMuxPins_addr,
    fun p => ⟨rfl, rfl, rfl, rfl⟩, ?_, ?_⟩
  · intro c p hc
    interval_cases c <;> exact ⟨rfl, rfl, rfl, rfl⟩
  · intro c p ops hc
    rw [currentChannel_applyEnOps]
    interval_cases c <;> simp [currentChannel, setMuxChannelPins] <;> decide

/-- Witness for C10: channel 11 survives an interleaved enable/disable
sequence. -/
theorem gpio_channel_enable_framing_witness :
    (11 : Nat) ≤ 15 ∧
    currentChannel
      (applyEnOps [.en 1, .dis, .en 3] (setMuxChannelPins 11 initPins)) = 11 :=
  ⟨by decide,
   gpio_channel_enable_framing.2.2.2.2 11 initPins [.en 1, .dis, .en 3] (by decide)⟩

/-! ## Monitoring-loop overlap (C3) -/

/-- **C3 counterexample.** After `startMonitoring`, two timer ticks firing
before the first sweep returns leave two `collectAndLogData` invocations
in flight and log no missed cycle: the handler installed by
`startMonitoring` contains no overlap guard and no missed-cycle log, so a
tick firing during a running sweep is neither dropped nor logged, contrary
to the claim. -/
theorem tick_overlap_counterexample :
    (intervalTick (intervalTick (startMonitoring initialMonitor))).inFlight = 2 ∧
    (intervalTick (intervalTick (startMonitoring initialMonitor))).missedLogged = 0 := by
  decide

/-- **C3 (amended).** Interval ticks are never dropped: each tick starts a
new `collectAndLogData` invocation regardless of any sweep still in
flight, and no missed-cycle log exists; only `startMonitoring` itself is
guarded — calling it while monitoring is already active changes nothing. -/
theorem tick_always_starts_sweep (s : MonitorState) :
    (intervalTick s).inFlight = s.inFlight + 1 ∧
    (intervalTick s).missedLogged = s.missedLogged ∧
    (s.monitoring = true → startMonitoring s = s) := by
  refine ⟨rfl, rfl, fun h => ?_⟩
  simp [startMonitoring, h]

/-- Witness for the amended C3 at the started monitor state. -/
theorem tick_always_starts_sweep_witness :
    (startMonitoring initialMonitor).monitoring = true ∧
    (intervalTick (startMonitoring initialMonitor)).inFlight =
      (startMonitoring initialMonitor).inFlight + 1 ∧
    startMonitoring (startMonitoring initialMonitor) =
      startMonitoring initialMonitor :=
  ⟨by decide, (tick_always_starts_sweep (startMonitoring initialMonitor)).1,
   (tick_always_starts_sweep (startMonitoring initialMonitor)).2.2 (by decide)⟩

/-! ## CSV header write-once (C7) -/

theorem rotateFileP_headers (st : CSVState) :
    (rotateFileP st).headers = st.headers := by
  unfold rotateFileP
  cases h : st.headers <;> simp [h]

theorem rotateFileP_file (hs : List String) (st : CSVState)
    (h1 : st.headers = some hs) :
    (rotateFileP st).file = [headerLine hs] := by
  unfold rotateFileP
  simp [h1]

theorem logDataP_headers (l : String) (st : CSVState) :
    (logDataP l st).headers = st.headers := by
  unfold logDataP
  by_cases hgt : st.fileSz + lineBytes l > st.maxFileSize
  · simp [hgt, rotateFileP_headers]
  · simp [hgt]

theorem logDataP_count (hs : List String) (l : String) (st : CSVState)
    (h1 : st.headers = some hs)
    (hcount : List.count (headerLine hs) st.file = 1)
    (hne : l ≠ headerLine hs) :
    List.count (headerLine hs) (logDataP l st).file = 1 := by
  unfold logDataP
  by_cases hgt : st.fileSz + lineBytes l > st.maxFileSize
  · simp [hgt, rotateFileP_file hs st h1, List.count_append,
      List.count_cons, List.count_nil, hne]
  · simp [hgt, List.count_append, List.count_cons, List.count_nil, hne, hcount]

theorem csvFold_count (hs : List String) (lines : List String) :
    ∀ st, st.headers = some hs →
      List.count (headerLine hs) st.file = 1 →
      (∀ l ∈ lines, l ≠ headerLine hs) →
      List.count (headerLine hs)
        (lines.foldl (fun st l => logDataP l st) st).file = 1 := by
  induction lines with
  | nil => exact fun st _ h2 _ => h2
  | cons l rest ih =>
    intro st h1 h2 h3
    exact ih (logDataP l st) ((logDataP_headers l st).trans h1)
      (logDataP_count hs l st h1 h2 (h3 l (by simp)))
      (fun x hx => h3 x (by simp [hx]))

/-- **C7.** On a run that starts from a fresh empty file, writes the
headers once, and then logs any sequence of data lines (distinct from the
header line), the active file contains the header row exactly once — also
across rotations, which re-stamp it exactly once; moreover `writeHeaders`
appends the header exactly when the recorded file size is zero and writes
nothing otherwise. -/
theorem header_written_exactly_once (maxSz : Nat) (hs : List String)
    (lines : List String) (hne : ∀ l ∈ lines, l ≠ headerLine hs) :
    List.count (headerLine hs) (csvRun maxSz hs lines).file = 1 ∧
    (∀ st hs2, st.fileSz ≠ 0 →
      (writeHeadersP hs2 st).file = st.file ∧
      (writeHeadersP hs2 st).fileSz = st.fileSz) ∧
    (∀ st hs2, st.fileSz = 0 →
      (writeHeadersP hs2 st).file = st.file ++ [headerLine hs2]) := by
  refine ⟨?_, ?_, ?_⟩
  · have h1 : (writeHeadersP hs (freshCSV maxSz)).headers = some hs := by
      simp [writeHeadersP, freshCSV]
    have h2 : List.count (headerLine hs) (writeHeadersP hs (freshCSV maxSz)).file = 1 := by
      simp [writeHeadersP, freshCSV]
    exact csvFold_count hs lines (writeHeadersP hs (freshCSV maxSz)) h1 h2 hne
  · intro st hs2 h
    simp [writeHeadersP, h]
  · intro st hs2 h
    simp [writeHeadersP, h]

/-- Witness for C7: a concrete run whose second data line forces a
rotation still shows exactly one header row in the active file. -/
theorem header_written_exactly_once_witness :
    (∀ l ∈ ["t,1\n", "t,2\n"], l ≠ headerLine ["a", "b"]) ∧
    List.count (headerLine ["a", "b"])
      (csvRun 10 ["a", "b"] ["t,1\n", "t,2\n"]).file = 1 :=
  ⟨by decide,
   (header_written_exactly_once 10 ["a", "b"] ["t,1\n", "t,2\n"] (by decide)).1⟩

/-! ## CSV rotation (C2) -/

/-- The size-plus-line bound that `CSVLogger.logData` does maintain:
whenever the recorded header line fits within `maxFileSize`, one `logData`
step leaves `fileSize` at most `maxFileSize` plus the size of the line. -/
theorem logDataP_fileSz_bound (st : CSVState) (l : String)
    (hh : ∀ hs, st.headers = some hs →
      lineBytes (headerLine hs) ≤ st.maxFileSize) :
    (logDataP l st).fileSz ≤ st.maxFileSize + lineBytes l := by
  unfold logDataP
  by_cases hgt : st.fileSz + lineBytes l > st.maxFileSize
  · unfold rotateFileP
    cases h : st.headers with
    | none => simp [hgt, h]
    | some hs =>
      have := hh hs h
      simp [hgt, h]
      omega
  · simp [hgt]
    omega

/-- **C2 (code bug).** The delivery path the sweep actually uses,
`FuseMonitorService.logToCSV`, writes the row to the stream with no
rotation check: with `maxFileSize = 10` and a 6-byte row, three deliveries
leave the active file at 18 bytes — more than `maxFileSize` plus one
line of slack (16) — with no rotation; the same three rows pushed through
`CSVLogger.logData` rotate twice and keep the bound. -/
theorem rotation_bypassed_by_logToCSV :
    lineBytes (csvRow "a" ["1", "2"]) = 6 ∧
    fileBytes (logToCSVP "a" ["1", "2"]
      (logToCSVP "a" ["1", "2"]
        (logToCSVP "a" ["1", "2"] (freshCSV 10)))).file = 18 ∧
    (logToCSVP "a" ["1", "2"]
      (logToCSVP "a" ["1", "2"]
        (logToCSVP "a" ["1", "2"] (freshCSV 10)))).rotationCount = 0 ∧
    (logToCSVP "a" ["1", "2"]
      (logToCSVP "a" ["1", "2"]
        (logToCSVP "a" ["1", "2"] (freshCSV 10)))).fileSz = 0 ∧
    (logDataP (csvRow "a" ["1", "2"])
      (logDataP (csvRow "a" ["1", "2"])
        (logDataP (csvRow "a" ["1", "2"]) (freshCSV 10)))).rotationCount = 2 ∧
    fileBytes (logDataP (csvRow "a" ["1", "2"])
      (logDataP (csvRow "a" ["1", "2"])
        (logDataP (csvRow "a" ["1", "2"]) (freshCSV 10)))).file = 6 := by
  decide

/-! ## ADC conversion (C8) -/

/-- **C8.** `readChannel` interprets the raw conversion-register value as
twos-complement 16-bit signed (congruent to `raw` mod 2^16 and within
[-32768, 32767]), scales it by `raw/32767 * fullScaleRange(gain)` with
default range ±4.096 V, and returns that voltage rounded to exactly two
decimal places (an integer number of hundredths, within 1/200 of the
unrounded value). -/
theorem adc_conversion_correct (gain raw : Nat) (hraw : raw ≤ 65535) :
    (signedOfRaw raw % 65536 = (raw : Int) % 65536 ∧
      -32768 ≤ signedOfRaw raw ∧ signedOfRaw raw ≤ 32767) ∧
    readChannelVoltage gain raw =
      (jsRound ((signedOfRaw raw : ℚ) / 32767 * getVoltageRange gain * 100) : ℚ) / 100 ∧
    getVoltageRange defaultGain = 4.096 ∧
    (∃ z : ℤ, readChannelVoltage gain raw = (z : ℚ) / 100) ∧
    |readChannelVoltage gain raw - convertRawToVoltage gain raw| ≤ 1 / 200 := by
  refine ⟨?_, rfl, by norm_num [getVoltageRange, defaultGain],
    ⟨jsRound (convertRawToVoltage gain raw * 100), rfl⟩, ?_⟩
  · unfold signedOfRaw
    split <;> omega
  · have h1 : (jsRound (convertRawToVoltage gain raw * 100) : ℚ) ≤
        convertRawToVoltage gain raw * 100 + 1 / 2 := by
      unfold jsRound
      exact_mod_cast Int.floor_le (convertRawToVoltage gain raw * 100 + 1 / 2)
    have h2 : convertRawToVoltage gain raw * 100 + 1 / 2 <
        (jsRound (convertRawToVoltage gain raw * 100) : ℚ) + 1 := by
      unfold jsRound
      exact_mod_cast Int.lt_floor_add_one (convertRawToVoltage gain raw * 100 + 1 / 2)
    unfold readChannelVoltage
    rw [abs_le]
    constructor <;> linarith

/-- Witness for C8 at `raw = 40000` (a negative twos-complement value)
with the default gain: the returned voltage is -3.19 V. -/
theorem adc_conversion_witness :
    (40000 : Nat) ≤ 65535 ∧
    signedOfRaw 40000 = -25536 ∧
    readChannelVoltage defaultGain 40000 = -319 / 100 ∧
    |readChannelVoltage defaultGain 40000 -
      convertRawToVoltage defaultGain 40000| ≤ 1 / 200 :=
  ⟨by decide, by decide,
   by norm_num [readChannelVoltage, convertRawToVoltage, signedOfRaw,
     getVoltageRange, defaultGain, jsRound, Int.floor_eq_iff],
   (adc_conversion_correct defaultGain 40000 (by decide)).2.2.2.2⟩

/-! ## Buffered remote sink (C9) -/

theorem evict_lastN {α : Type} (cap : Nat) (l : List α) (r : α) :
    deliverFail ⟨cap, lastN cap l⟩ r = ⟨cap, lastN cap (l ++ [r])⟩ := by
  have hb : lastN cap l ++ [r] = (l ++ [r]).drop (l.length - cap) := by
    rw [List.drop_append_eq_append_drop]
    have h0 : l.length - cap - l.length = 0 := by omega
    simp [lastN, h0]
  unfold deliverFail
  simp only [BufferedRemoteSink.mk.injEq, true_and, hb]
  by_cases hc : cap ≤ l.length
  · have hlen : ((l ++ [r]).drop (l.length - cap)).length = cap + 1 := by
      simp
      omega
    rw [hlen, if_pos (by omega), List.drop_drop]
    have h1 : l.length - cap + (cap + 1 - cap) = l.length + 1 - cap := by omega
    rw [h1]
    unfold lastN
    simp
  · have hlen : ((l ++ [r]).drop (l.length - cap)).length = l.length + 1 := by
      simp
      omega
    rw [hlen, if_neg (by omega)]
    have h2 : l.length - cap = 0 := by omega
    have h3 : (l ++ [r]).length - cap = 0 := by
      simp
      omega
    unfold lastN
    rw [h2, h3]

theorem foldl_deliverFail {α : Type} (cap : Nat) (rs : List α) :
    ∀ l, ((rs.foldl deliverFail ⟨cap, lastN cap l⟩)).buffer = lastN cap (l ++ rs) := by
  induction rs with
  | nil => intro l; simp [lastN]
  | cons r rest ih =>
    intro l
    rw [List.foldl_cons, evict_lastN cap l r]
    have h := ih (l ++ [r])
    simpa [List.append_assoc] using h

/-- **C9.** (Spec-modelled BufferedRemoteSink.)  Delivering any sequence of
results while the endpoint is failing never grows the retry buffer beyond
`capacity` (default `MAX_BUFFER_SIZE = 100`): the oldest entry is evicted
to admit the newest, and the retained entries are exactly the most recent
`capacity` delivered results, in order. -/
theorem buffer_bounded_fifo {α : Type} (cap : Nat) (rs : List α) :
    (rs.foldl deliverFail (emptySink α cap)).buffer =
      rs.drop (rs.length - cap) ∧
    (rs.foldl deliverFail (emptySink α cap)).buffer.length ≤ cap ∧
    (cap ≤ rs.length →
      (rs.foldl deliverFail (emptySink α cap)).buffer.length = cap) ∧
    defaultMaxBufferSize = 100 := by
  have h0 : emptySink α cap = ⟨cap, lastN cap ([] : List α)⟩ := by
    simp [emptySink, lastN]
  have h := foldl_deliverFail cap rs ([] : List α)
  rw [← h0] at h
  simp only [List.nil_append] at h
  unfold lastN at h
  refine ⟨h, ?_, ?_, rfl⟩
  · rw [h]
    simp
    omega
  · intro hcap
    rw [h]
    simp
    omega

/-- Witness for C9: capacity 3, five failed deliveries — the buffer holds
exactly the three most recent results. -/
theorem buffer_bounded_fifo_witness :
    ([1, 2, 3, 4, 5].foldl deliverFail (emptySink Nat 3)).buffer = [3, 4, 5] ∧
    (3 : Nat) ≤ [1, 2, 3, 4, 5].length ∧
    ([1, 2, 3, 4, 5].foldl deliverFail (emptySink Nat 3)).buffer.length = 3 :=
  ⟨by have h := (buffer_bounded_fifo 3 [1, 2, 3, 4, 5]).1; simpa using h,
   by decide,
   (buffer_bounded_fifo 3 [1, 2, 3, 4, 5]).2.2.1 (by decide)⟩

end FuseTester
